import Mathlib

/-
  Shallow embedding of the SuiFlashBotTemplate repository (TypeScript) for
  specification checking.

  Sources embedded here:
  - src/src/config/sevenk.ts            (validateTokenFormat, fixTokenFormat, getTokenAddress)
  - src/src/executor/SevenKSwapExecutor.ts  (getFallbackQuote, getSwapQuote non-mock branch)
  - SuiLendExecutor (withRetry)         (src/unnamed/part_002)
  - src/src/orchestrator/ArbitrageOrchestrator.ts (startScanning/stopScanning/processOpportunity)
  - MockDatabase (findPools)            (src/unnamed/part_003)

  Modelling conventions: JS numbers are modelled as exact rationals (ℚ); the
  `toFixed(8)` string formatting on quote fields is not modelled (fields hold
  the exact values computed before formatting).  `Math.random()` is modelled
  as an explicit parameter `r` with `0 ≤ r ≤ 1` where its value matters.
  Thrown JS exceptions are modelled with `Except`.
-/

namespace SuiFlashBot

/- ------------------------------------------------------------------ -/
/- Section 1: token format helpers, from src/src/config/sevenk.ts     -/
/- ------------------------------------------------------------------ -/

/-- Character class `[a-fA-F0-9]` of the regexes in sevenk.ts. -/
def isHexDigit (c : Char) : Bool :=
  (('0' ≤ c) && (c ≤ '9')) || (('a' ≤ c) && (c ≤ 'f')) || (('A' ≤ c) && (c ≤ 'F'))

/-- Character class `[a-zA-Z0-9_]` of the regexes in sevenk.ts. -/
def isIdentChar (c : Char) : Bool :=
  (('a' ≤ c) && (c ≤ 'z')) || (('A' ≤ c) && (c ≤ 'Z')) || (('0' ≤ c) && (c ≤ '9')) || (c == '_')

/-- Matcher for the regex body `[a-fA-F0-9]+::[a-zA-Z0-9_]+::[a-zA-Z0-9_]+$`
(what follows the `0x` in `validateTokenFormat`, and also the whole
unprefixed-triple regex used by `fixTokenFormat`).  Since neither character
class contains `':'`, greedy scanning is equivalent to the regex semantics. -/
def tripleBody (l : List Char) : Bool :=
  match l.takeWhile isHexDigit, l.dropWhile isHexDigit with
  | _ :: _, ':' :: ':' :: r2 =>
    (match r2.takeWhile isIdentChar, r2.dropWhile isIdentChar with
     | _ :: _, ':' :: ':' :: r4 => (!r4.isEmpty) && r4.all isIdentChar
     | _, _ => false)
  | _, _ => false

/-- `validateTokenFormat` from sevenk.ts: test of
`/^0x[a-fA-F0-9]+::[a-zA-Z0-9_]+::[a-zA-Z0-9_]+$/`. -/
def validateTokenFormat (s : String) : Bool :=
  match s.data with
  | '0' :: 'x' :: rest => tripleBody rest
  | _ => false

/-- ASCII whitespace removed by JS `String.prototype.trim` (restricted to the
common ASCII whitespace characters). -/
def isJsWhitespace (c : Char) : Bool :=
  (c == ' ') || (c == '\t') || (c == '\n') || (c == '\r') || (c == '\x0b') || (c == '\x0c')

/-- `tokenAddress.trim()`. -/
def trimChars (l : List Char) : List Char :=
  ((l.dropWhile isJsWhitespace).reverse.dropWhile isJsWhitespace).reverse

/-- The regex `/^0x[a-fA-F0-9]+$/` used by `fixTokenFormat`. -/
def isBareHexAddress (l : List Char) : Bool :=
  match l with
  | '0' :: 'x' :: rest => (!rest.isEmpty) && rest.all isHexDigit
  | _ => false

/-- `fixTokenFormat` from sevenk.ts. -/
def fixTokenFormat (s : String) : String :=
  if validateTokenFormat s then s
  else if isBareHexAddress (trimChars s.data) then ⟨trimChars s.data ++ "::coin::COIN".data⟩
  else if tripleBody (trimChars s.data) then ⟨'0' :: 'x' :: trimChars s.data⟩
  else s

/-- The static `TOKEN_MAP` of sevenk.ts. -/
def TOKEN_MAP : List (String × String) :=
  [ ("SUI", "0x2::sui::SUI"),
    ("USDC", "0x5d4b302506645c37ff133b98c4b50a5ae14841659738d6d733d59d0d2177914::coin::COIN"),
    ("USDT", "0xc060006111016b8a020ad5b33834984a437aaa7d3c74c18e09a95d48aceab54c::coin::COIN"),
    ("WETH", "0xaf8cd5edc19c4512f4259f0bee101a40d41ebed738ade5874359610ef8eeced5::coin::COIN"),
    ("BTC", "0x027792d9fed7f9844eb4839566001bb6f6cb4804f66aa2da6fe1ee242d896881::coin::COIN"),
    ("WBTC", "0x5f8c8d4b1591b9dcfd3a21dd123bb7c5c0d4992dc1a2653e37d7351b3e577ee5::coin::COIN"),
    ("CELO", "0x8d112837c412ec5aa1cf35878d9b15d94e62c48097c638940cd15d41ccc4c1b1::coin::COIN") ]

/-- `symbolOrAddress.toUpperCase()` (ASCII). -/
def toUpperString (s : String) : String := ⟨s.data.map Char.toUpper⟩

/-- `getTokenAddress` from sevenk.ts (`null` modelled as `none`). -/
def getTokenAddress (symbolOrAddress : String) : Option String :=
  if validateTokenFormat symbolOrAddress then some symbolOrAddress
  else
    match TOKEN_MAP.find? (fun kv => kv.1 == toUpperString symbolOrAddress) with
    | some kv => some kv.2
    | none => none

/- ------------------------------------------------------------------ -/
/- Helper lemmas about takeWhile/dropWhile                            -/
/- ------------------------------------------------------------------ -/

theorem isEmpty_false_iff_ne_nil {α : Type} (l : List α) : l.isEmpty = false ↔ l ≠ [] := by
  cases l <;> simp

theorem all_takeWhile (p : Char → Bool) : ∀ l : List Char, ((l.takeWhile p).all p) = true := by
  intro l
  induction l with
  | nil => rfl
  | cons a l ih =>
    by_cases h : p a = true
    · simp [List.takeWhile_cons, h, ih]
    · simp [List.takeWhile_cons, Bool.eq_false_iff.mpr h]

theorem takeWhile_append_stop (p : Char → Bool) (c : Char) (r : List Char) (hc : p c = false) :
    ∀ l : List Char, l.all p = true → (l ++ c :: r).takeWhile p = l := by
  intro l
  induction l with
  | nil => intro _; simp [List.takeWhile_cons, hc]
  | cons a l ih =>
    intro hall
    rw [List.all_cons, Bool.and_eq_true] at hall
    simp [List.takeWhile_cons, hall.1, ih hall.2]

theorem dropWhile_append_stop (p : Char → Bool) (c : Char) (r : List Char) (hc : p c = false) :
    ∀ l : List Char, l.all p = true → (l ++ c :: r).dropWhile p = c :: r := by
  intro l
  induction l with
  | nil => intro _; simp [List.dropWhile_cons, hc]
  | cons a l ih =>
    intro hall
    rw [List.all_cons, Bool.and_eq_true] at hall
    simp [List.dropWhile_cons, hall.1, ih hall.2]

/-- The pattern `0x<hex digits>::<identifier>::<identifier>` as the spec words
it, stated as an existence of a decomposition of the character list. -/
def MatchesTokenPattern (s : String) : Prop :=
  ∃ h m n : List Char,
    s.data = '0' :: 'x' :: (h ++ ':' :: ':' :: (m ++ ':' :: ':' :: n)) ∧
    h ≠ [] ∧ h.all isHexDigit = true ∧
    m ≠ [] ∧ m.all isIdentChar = true ∧
    n ≠ [] ∧ n.all isIdentChar = true

theorem tripleBody_iff (l : List Char) :
    tripleBody l = true ↔
    ∃ h m n : List Char,
      l = h ++ ':' :: ':' :: (m ++ ':' :: ':' :: n) ∧
      h ≠ [] ∧ h.all isHexDigit = true ∧
      m ≠ [] ∧ m.all isIdentChar = true ∧
      n ≠ [] ∧ n.all isIdentChar = true := by
  constructor
  · intro htb
    unfold tripleBody at htb
    split at htb
    case _ h0 hT r2 hTeq hDeq =>
      split at htb
      case _ m0 mT r4 hTeq2 hDeq2 =>
        rw [Bool.and_eq_true, Bool.not_eq_true', isEmpty_false_iff_ne_nil] at htb
        refine ⟨h0 :: hT, m0 :: mT, r4, ?_, by simp, ?_, by simp, ?_, htb.1, htb.2⟩
        · have h1 : l.takeWhile isHexDigit ++ l.dropWhile isHexDigit = l :=
            List.takeWhile_append_dropWhile isHexDigit l
          rw [hTeq, hDeq] at h1
          have h2 : r2.takeWhile isIdentChar ++ r2.dropWhile isIdentChar = r2 :=
            List.takeWhile_append_dropWhile isIdentChar r2
          rw [hTeq2, hDeq2] at h2
          rw [← h1, ← h2]
        · have := all_takeWhile isHexDigit l
          rw [hTeq] at this
          exact this
        · have := all_takeWhile isIdentChar r2
          rw [hTeq2] at this
          exact this
      case _ =>
        exact absurd htb (by simp)
    case _ =>
      exact absurd htb (by simp)
  · rintro ⟨h, m, n, hl, hne, hall, mne, mall, nne, nall⟩
    have hT : l.takeWhile isHexDigit = h := by
      rw [hl]; exact takeWhile_append_stop isHexDigit ':' _ (by decide) h hall
    have hD : l.dropWhile isHexDigit = ':' :: ':' :: (m ++ ':' :: ':' :: n) := by
      rw [hl]; exact dropWhile_append_stop isHexDigit ':' _ (by decide) h hall
    have hT2 : (m ++ ':' :: ':' :: n).takeWhile isIdentChar = m :=
      takeWhile_append_stop isIdentChar ':' _ (by decide) m mall
    have hD2 : (m ++ ':' :: ':' :: n).dropWhile isIdentChar = ':' :: ':' :: n :=
      dropWhile_append_stop isIdentChar ':' _ (by decide) m mall
    obtain ⟨h0, hT', rfl⟩ : ∃ a t, h = a :: t := by
      cases h with
      | nil => exact absurd rfl hne
      | cons a t => exact ⟨a, t, rfl⟩
    obtain ⟨m0, mT', rfl⟩ : ∃ a t, m = a :: t := by
      cases m with
      | nil => exact absurd rfl mne
      | cons a t => exact ⟨a, t, rfl⟩
    unfold tripleBody
    rw [hT, hD]
    simp only []
    rw [hT2, hD2]
    simp only [Bool.and_eq_true, Bool.not_eq_true', isEmpty_false_iff_ne_nil]
    exact ⟨nne, nall⟩

theorem validateTokenFormat_iff (s : String) :
    validateTokenFormat s = true ↔ MatchesTokenPattern s := by
  constructor
  · intro hv
    unfold validateTokenFormat at hv
    split at hv
    case _ rest heq =>
      obtain ⟨h, m, n, hl, hprops⟩ := (tripleBody_iff rest).mp hv
      exact ⟨h, m, n, by rw [heq, hl], hprops⟩
    case _ hne =>
      exact absurd hv (by simp)
  · rintro ⟨h, m, n, hdata, hprops⟩
    unfold validateTokenFormat
    rw [hdata]
    exact (tripleBody_iff _).mpr ⟨h, m, n, rfl, hprops⟩

/- ------------------------------------------------------------------ -/
/- Section 2: fallback quote, from SevenKSwapExecutor.getFallbackQuote -/
/- (src/src/executor/SevenKSwapExecutor.ts lines 441-530)              -/
/- ------------------------------------------------------------------ -/

/-- Whether the first list is an initial segment of the second. -/
def startsWithChars : List Char → List Char → Bool
  | [], _ => true
  | _ :: _, [] => false
  | a :: s, b :: t => (a == b) && startsWithChars s t

/-- Whether `sub` occurs contiguously inside the second list. -/
def hasSubstringChars (sub : List Char) : List Char → Bool
  | [] => sub.isEmpty
  | b :: t => startsWithChars sub (b :: t) || hasSubstringChars sub t

/-- JS `s.includes(sub)`. -/
def jsIncludes (s sub : String) : Bool := hasSubstringChars sub.data s.data

/-- Branch condition selecting the 1.1 SUI→USDC rate in `getFallbackQuote`. -/
def isSuiToUsdcPair (tokenIn tokenOut : String) : Bool :=
  (jsIncludes tokenIn "::sui::SUI" && jsIncludes tokenOut "::usdc::") ||
  (jsIncludes tokenIn "::sui::SUI" && jsIncludes tokenOut "coin::COIN" &&
    jsIncludes tokenOut "5d4b302")

/-- Branch condition selecting the 1/1.1 USDC→SUI rate. -/
def isUsdcToSuiPair (tokenIn tokenOut : String) : Bool :=
  (jsIncludes tokenOut "::sui::SUI" && jsIncludes tokenIn "::usdc::") ||
  (jsIncludes tokenOut "::sui::SUI" && jsIncludes tokenIn "coin::COIN" &&
    jsIncludes tokenIn "5d4b302")

/-- Branch condition selecting the 65000 BTC→USDC rate. -/
def isBtcToUsdcPair (tokenIn tokenOut : String) : Bool :=
  (jsIncludes tokenIn "::btc::" || jsIncludes tokenIn "BTC") &&
  (jsIncludes tokenOut "::usdc::" || jsIncludes tokenOut "USDC")

/-- Branch condition selecting the 1/65000 USDC→BTC rate. -/
def isUsdcToBtcPair (tokenIn tokenOut : String) : Bool :=
  (jsIncludes tokenOut "::btc::" || jsIncludes tokenOut "BTC") &&
  (jsIncludes tokenIn "::usdc::" || jsIncludes tokenIn "USDC")

/-- The exchange-rate selection chain of `getFallbackQuote`.  `r` models the
`Math.random()` draw used only in the final catch-all branch
(`1.0 + (Math.random() * 0.02 - 0.01)`). -/
def fallbackExchangeRate (tokenIn tokenOut : String) (r : ℚ) : ℚ :=
  if isSuiToUsdcPair tokenIn tokenOut then 11 / 10
  else if isUsdcToSuiPair tokenIn tokenOut then 1 / (11 / 10)
  else if isBtcToUsdcPair tokenIn tokenOut then 65000
  else if isUsdcToBtcPair tokenIn tokenOut then 1 / 65000
  else 1 + (r * (2 / 100) - 1 / 100)

/-- The simulated flat fee rate (0.3%) of `getFallbackQuote`. -/
def simulatedFeeRate : ℚ := 3 / 1000

/-- The slippage tolerance: `params.slippage ? params.slippage / 100 : 0.005`.
A missing slippage is `none`; note JS treats a present `0` as falsy too. -/
def slippageToleranceOf (slippage : Option ℚ) : ℚ :=
  match slippage with
  | some sl => if sl = 0 then 5 / 1000 else sl / 100
  | none => 5 / 1000

/-- Ephemeral quote record (the fields of the object literal returned by
`getFallbackQuote`, and of aggregator quotes, that the claims mention).
`numRoutes` is the length of the `routes` array. -/
structure Quote where
  returnAmount : ℚ
  amountOutMin : ℚ
  effectivePrice : ℚ
  priceImpact : ℚ
  feeAmount : ℚ
  numRoutes : Nat
  isFallback : Bool
deriving DecidableEq

/-- `getFallbackQuote` (the body of its `try` block; nothing in the modelled
body can throw, so the catch-all basic fallback at lines 513-529 is dead code
for these inputs).  `amountIn` is the parsed input amount and `r` the
`Math.random()` draw. -/
def getFallbackQuote (tokenIn tokenOut : String) (amountIn : ℚ) (slippage : Option ℚ)
    (r : ℚ) : Quote :=
  let exchangeRate := fallbackExchangeRate tokenIn tokenOut r
  let fee := amountIn * simulatedFeeRate
  let outputAmountBeforeSlippage := amountIn * exchangeRate - fee
  let minOutputAmount := outputAmountBeforeSlippage * (1 - slippageToleranceOf slippage)
  { returnAmount := outputAmountBeforeSlippage
    amountOutMin := minOutputAmount
    effectivePrice := exchangeRate
    priceImpact := simulatedFeeRate
    feeAmount := fee
    numRoutes := 1
    isFallback := true }

/- ------------------------------------------------------------------ -/
/- Section 3: getSwapQuote non-mock dispatch                           -/
/- (src/src/executor/SevenKSwapExecutor.ts lines 369-432)              -/
/- ------------------------------------------------------------------ -/

/-- Outcome of the external `getQuote` SDK call: it either throws an error
(carrying a message) or resolves; a resolved `null`/`undefined` value is
`response none`. -/
inductive AggregatorOutcome where
  | thrownError (msg : String)
  | response (q : Option Quote)
deriving DecidableEq

/-- The network-failure test of the catch block at lines 385-391. -/
def isNetworkErrorMessage (msg : String) : Bool :=
  jsIncludes msg "ENOTFOUND" || jsIncludes msg "ECONNREFUSED" ||
  jsIncludes msg "timeout" || jsIncludes msg "abort"

/-- Result of `getSwapQuote`: a quote returned from the aggregator, a quote
from the fallback estimator, or a thrown error (propagated). -/
inductive SwapQuoteResult where
  | ok (q : Quote)
  | fallback (q : Quote)
  | raised (msg : String)
deriving DecidableEq

/-- The non-mock branch of `getSwapQuote` after token validation succeeded
(lines 369-432): dispatch on the aggregator outcome.  `tokenIn`, `tokenOut`,
`amountIn`, `slippage` are the validated quote parameters and `r` the
`Math.random()` draw a fallback quote would consume. -/
def getSwapQuoteNonMock (tokenIn tokenOut : String) (amountIn : ℚ) (slippage : Option ℚ)
    (r : ℚ) (outcome : AggregatorOutcome) : SwapQuoteResult :=
  match outcome with
  | .thrownError msg =>
      if isNetworkErrorMessage msg then
        .fallback (getFallbackQuote tokenIn tokenOut amountIn slippage r)
      else
        .raised ("7K Protocol getQuote failed: " ++ msg)
  | .response none =>
      .fallback (getFallbackQuote tokenIn tokenOut amountIn slippage r)
  | .response (some q) =>
      if q.numRoutes = 0 then
        .raised ("No swap routes found for " ++ tokenIn ++ " to " ++ tokenOut)
      else
        .ok q

/- ------------------------------------------------------------------ -/
/- Section 4: SuiLendExecutor.withRetry (src/unnamed/part_002, 422-445) -/
/- ------------------------------------------------------------------ -/

/-- Observable trace of one `withRetry` run: the final value (`Except.error
none` models the default `Operation failed after maximum retry attempts`
error thrown when no attempt ever ran), the number of times the operation was
invoked, and the argument of each `setTimeout` sleep, in order. -/
structure RetryTrace (E A : Type) where
  result : Except (Option E) A
  calls : Nat
  delays : List Nat

/-- The `for (let attempt = 1; attempt <= this.retryAttempts; attempt++)` loop
of `withRetry`.  `op i` is what the `operation()` call returns on its `i`-th
invocation; `remaining` counts loop iterations still allowed, `attempt` is the
loop counter, and `last` is the `lastError` accumulator. -/
def retryLoop {E A : Type} (op : Nat → Except E A) (retryDelay retryAttempts : Nat) :
    Nat → Nat → Option E → RetryTrace E A
  | 0, _, last => ⟨.error last, 0, []⟩
  | remaining + 1, attempt, _ =>
    match op attempt with
    | .ok a => ⟨.ok a, 1, []⟩
    | .error e =>
      let rest := retryLoop op retryDelay retryAttempts remaining (attempt + 1) (some e)
      ⟨rest.result, rest.calls + 1,
        (if attempt < retryAttempts then [retryDelay * attempt] else []) ++ rest.delays⟩

/-- `withRetry(operation)` of SuiLendExecutor, with its two config fields
(`retryAttempts`, `retryDelay`) made explicit parameters. -/
def withRetry {E A : Type} (op : Nat → Except E A) (retryAttempts retryDelay : Nat) :
    RetryTrace E A :=
  retryLoop op retryDelay retryAttempts retryAttempts 1 none

/- ------------------------------------------------------------------ -/
/- Section 5: ArbitrageOrchestrator (src/src/orchestrator/...)         -/
/- ------------------------------------------------------------------ -/

/-- The mutable fields of `ArbitrageOrchestrator` that `startScanning` /
`stopScanning` touch.  `scanInterval` holds the repeating-timer handle
(`null` = `none`); the handle value itself is opaque, modelled as `0`. -/
structure OrchestratorState where
  isRunning : Bool
  scanInterval : Option Nat
deriving DecidableEq

/-- Externally observable effects of calling `startScanning`/`stopScanning`
and of the timer machinery. -/
inductive OrchestratorEvent where
  | warnAlreadyRunning
  | performScan
  | armTimer
  | warnNotRunning
  | cancelTimer
deriving DecidableEq

/-- Fresh orchestrator: `isRunning = false`, no timer armed. -/
def freshOrchestratorState : OrchestratorState := ⟨false, none⟩

/-- `startScanning` (lines 62-82): no-op with a warning when already running;
otherwise set `isRunning`, perform one immediate scan, arm the interval. -/
def startScanning (s : OrchestratorState) : OrchestratorState × List OrchestratorEvent :=
  if s.isRunning then (s, [.warnAlreadyRunning])
  else (⟨true, some 0⟩, [.performScan, .armTimer])

/-- `stopScanning` (lines 87-102): warn if not running; otherwise clear the
interval (if armed) and reset the flags. -/
def stopScanning (s : OrchestratorState) : OrchestratorState × List OrchestratorEvent :=
  if !s.isRunning then (s, [.warnNotRunning])
  else (⟨false, none⟩,
    (if s.scanInterval.isSome then [.cancelTimer] else []))

/-- What one elapsed interval period does: the scheduled scan fires exactly
when a timer handle is still armed. -/
def timerTick (s : OrchestratorState) : List OrchestratorEvent :=
  if s.scanInterval.isSome then [.performScan] else []

/-- The `ArbitrageOpportunity` record (src/src/types/token.ts, as used by the
orchestrator).  `estimatedProfit` holds the `parseFloat`-parsed USD value. -/
structure ArbitrageOpportunity where
  tokenA : String
  tokenB : String
  entryPoolId : String
  exitPoolId : String
  entryDex : String
  exitDex : String
  profitableTrade : Bool
  estimatedProfit : ℚ
  error : Option String := none
deriving DecidableEq

/-- Default of the `minProfitThresholdUsd` field (line 37). -/
def minProfitThresholdUsdDefault : ℚ := 5

/-- Result of one `processOpportunity` call: the opportunity store after the
call and whether `executeArbitrage` was invoked. -/
structure ProcessOutcome where
  store : List ArbitrageOpportunity
  executed : Bool
deriving DecidableEq

/-- `processOpportunity` (lines 183-210).  `execResult` is what the
`executeArbitrage` call would do if invoked (`.error` = it throws);
`mockDatabase.addArbitrageOpportunity` appends to `store` and cannot throw.
The function returns `Except.error` only if the promise would reject. -/
def processOpportunity (minProfitThresholdUsd : ℚ) (execResult : Except String String)
    (opp : ArbitrageOpportunity) (store : List ArbitrageOpportunity) :
    Except String ProcessOutcome :=
  let store1 := store ++ [opp]
  if opp.profitableTrade = false ∨ opp.estimatedProfit < minProfitThresholdUsd then
    .ok ⟨store1, false⟩
  else
    match execResult with
    | .ok _ => .ok ⟨store1, true⟩
    | .error msg => .ok ⟨store1 ++ [{ opp with error := some msg }], true⟩

/- ------------------------------------------------------------------ -/
/- Section 6: MockDatabase.findPools (src/unnamed/part_003, 104-110)   -/
/- ------------------------------------------------------------------ -/

/-- A row of the mock `pools` table (the fields `findPools` consults, plus
identification fields). -/
structure Pool where
  dex : String
  poolId : String
  tokenA : String
  tokenB : String
deriving DecidableEq

/-- `MockDatabase.findPools`: filter the pools table by the pair in either
orientation. -/
def findPools (pools : List Pool) (tokenA tokenB : String) : List Pool :=
  pools.filter fun p =>
    (p.tokenA == tokenA && p.tokenB == tokenB) || (p.tokenA == tokenB && p.tokenB == tokenA)

/- ------------------------------------------------------------------ -/
/- Claim theorems                                                      -/
/- ------------------------------------------------------------------ -/

/-- C10: `MockDatabase.findPools` is symmetric in its token arguments: for
every stored pools table and every pair of token strings, swapping the
arguments returns exactly the same pools, because a pool matches whenever its
`(tokenA, tokenB)` equals the queried pair in either order. -/
theorem C10_findPools_symmetric (pools : List Pool) (a b : String) :
    findPools pools a b = findPools pools b a := by
  unfold findPools
  apply List.filter_congr
  intro p _
  rw [Bool.or_comm]

/-- C7: `validateTokenFormat s` returns true if and only if `s` matches the
pattern `0x<hex digits>::<identifier>::<identifier>`; consequently every
accepted string decomposes around two `::` segments (so any string missing
either segment is rejected). -/
theorem C7_validateTokenFormat_pattern (s : String) :
    (validateTokenFormat s = true ↔ MatchesTokenPattern s) ∧
    (validateTokenFormat s = true →
      ∃ a b c : List Char, s.data = a ++ (':' :: ':' :: (b ++ (':' :: ':' :: c)))) := by
  refine ⟨validateTokenFormat_iff s, fun hv => ?_⟩
  obtain ⟨h, m, n, hdata, -, -, -, -, -, -⟩ := (validateTokenFormat_iff s).mp hv
  exact ⟨'0' :: 'x' :: h, m, n, by rw [hdata, List.cons_append, List.cons_append]⟩

/-- Witness for C7 at the concrete valid address `0x2::sui::SUI`. -/
theorem C7_validateTokenFormat_pattern_witness :
    MatchesTokenPattern "0x2::sui::SUI" ∧
    ∃ a b c : List Char,
      "0x2::sui::SUI".data = a ++ (':' :: ':' :: (b ++ (':' :: ':' :: c))) :=
  ⟨(C7_validateTokenFormat_pattern "0x2::sui::SUI").1.mp (by decide),
   (C7_validateTokenFormat_pattern "0x2::sui::SUI").2 (by decide)⟩

/-- C5: when `executeArbitrage` throws inside `processOpportunity`, the
exception is caught — the call resolves (`Except.ok`) instead of rejecting —
and a copy of the opportunity annotated with the error message is appended to
the store (after the unannotated record persisted at entry). -/
theorem C5_processOpportunity_catches (thr : ℚ) (msg : String)
    (opp : ArbitrageOpportunity) (store : List ArbitrageOpportunity)
    (hprof : opp.profitableTrade = true) (hthr : thr ≤ opp.estimatedProfit) :
    processOpportunity thr (.error msg) opp store =
      .ok ⟨store ++ [opp] ++ [{ opp with error := some msg }], true⟩ := by
  have hcond : ¬ (opp.profitableTrade = false ∨ opp.estimatedProfit < thr) := by
    rintro (h1 | h2)
    · rw [hprof] at h1; cases h1
    · exact absurd h2 (not_lt.mpr hthr)
  unfold processOpportunity
  rw [if_neg hcond]

/-- Witness for C5: a concrete profitable opportunity whose execution throws. -/
theorem C5_processOpportunity_catches_witness :
    processOpportunity 5 (.error "Invalid input token format after processing: SUI")
      ⟨"SUI", "USDC", "0xmockpool1", "0xmockpool2", "MockDex", "MockDex", true, 10, none⟩ [] =
      .ok ⟨[⟨"SUI", "USDC", "0xmockpool1", "0xmockpool2", "MockDex", "MockDex", true, 10, none⟩,
            ⟨"SUI", "USDC", "0xmockpool1", "0xmockpool2", "MockDex", "MockDex", true, 10,
              some "Invalid input token format after processing: SUI"⟩], true⟩ :=
  C5_processOpportunity_catches 5 "Invalid input token format after processing: SUI"
    ⟨"SUI", "USDC", "0xmockpool1", "0xmockpool2", "MockDex", "MockDex", true, 10, none⟩ []
    rfl (by norm_num)

/-- C6 (amended): `processOpportunity` always resolves, invokes the
swap/arbitrage execution iff the opportunity's `profitableTrade` flag is true
and its estimated USD profit is at or above the threshold (default $5), and
otherwise only persists the opportunity. -/
theorem C6_amended_execute_iff_at_or_above (thr : ℚ) (execResult : Except String String)
    (opp : ArbitrageOpportunity) (store : List ArbitrageOpportunity) :
    ∃ out, processOpportunity thr execResult opp store = .ok out ∧
      (out.executed = true ↔ (opp.profitableTrade = true ∧ thr ≤ opp.estimatedProfit)) ∧
      (out.executed = false → out.store = store ++ [opp]) := by
  unfold processOpportunity
  by_cases h : opp.profitableTrade = false ∨ opp.estimatedProfit < thr
  · refine ⟨⟨store ++ [opp], false⟩, by rw [if_pos h], ?_, fun _ => rfl⟩
    simp only [Bool.false_eq_true, false_iff]
    rintro ⟨h1, h2⟩
    rcases h with h3 | h3
    · rw [h1] at h3; cases h3
    · exact absurd h3 (not_lt.mpr h2)
  · push_neg at h
    have h1 : opp.profitableTrade = true := by
      cases hb : opp.profitableTrade
      · exact absurd hb h.1
      · rfl
    have h2 : thr ≤ opp.estimatedProfit := h.2
    rw [if_neg]
    · cases execResult with
      | ok tx => exact ⟨⟨store ++ [opp], true⟩, rfl, by simp [h1, h2], by intro hfalse; cases hfalse⟩
      | error msg =>
          exact ⟨⟨store ++ [opp] ++ [{ opp with error := some msg }], true⟩, rfl,
            by simp [h1, h2], by intro hfalse; cases hfalse⟩
    · rintro (h3 | h3)
      · rw [h1] at h3; cases h3
      · exact absurd h3 (not_lt.mpr h2)

/-- Witness for C6 (amended) at a concrete opportunity below the threshold. -/
theorem C6_amended_execute_iff_at_or_above_witness :
    ∃ out, processOpportunity minProfitThresholdUsdDefault (.ok "0xmocktx")
        ⟨"SUI", "USDT", "0xmockpool1", "0xmockpool2", "MockDex", "MockDex", true, 2, none⟩ [] =
        .ok out ∧
      (out.executed = true ↔
        ((true : Bool) = true ∧ minProfitThresholdUsdDefault ≤ (2 : ℚ))) ∧
      (out.executed = false →
        out.store = [] ++ [⟨"SUI", "USDT", "0xmockpool1", "0xmockpool2", "MockDex", "MockDex",
          true, 2, none⟩]) :=
  C6_amended_execute_iff_at_or_above minProfitThresholdUsdDefault (.ok "0xmocktx")
    ⟨"SUI", "USDT", "0xmockpool1", "0xmockpool2", "MockDex", "MockDex", true, 2, none⟩ []

/-- Counterexample to C6 as stated: with the default $5 threshold and an
opportunity whose estimated profit is exactly $5, the execution IS invoked,
although $5 is not strictly above the threshold — refuting the claimed
"invoked iff profitable and profit above the threshold". -/
theorem C6_counterexample_boundary :
    ¬ ((processOpportunity minProfitThresholdUsdDefault (.ok "0xmocktx")
          ⟨"SUI", "USDC", "0xmockpool1", "0xmockpool2", "MockDex", "MockDex", true, 5, none⟩
          []).toOption.map ProcessOutcome.executed = some true ↔
        ((true : Bool) = true ∧ minProfitThresholdUsdDefault < (5 : ℚ))) := by
  decide

/-- Counterexample to C1 as stated: for the token-pair strings "USDC"/"BTC"
(whose hard-coded exchange rate 1/65000 is smaller than the 0.3% fee rate),
input amount 65000000 > 0 and slippage 50 ≥ 0, the fallback quote has
`amountOutMin` strictly greater than `returnAmount` (both are negative and
multiplying by `1 - slippage` moves a negative value towards zero). -/
theorem C1_counterexample_low_rate_pair :
    0 < (65000000 : ℚ) ∧ (0 : ℚ) ≤ 50 ∧
    ¬ ((getFallbackQuote "USDC" "BTC" 65000000 (some 50) 0).amountOutMin ≤
       (getFallbackQuote "USDC" "BTC" 65000000 (some 50) 0).returnAmount) := by
  have e1 : isSuiToUsdcPair "USDC" "BTC" = false := by decide
  have e2 : isUsdcToSuiPair "USDC" "BTC" = false := by decide
  have e3 : isBtcToUsdcPair "USDC" "BTC" = false := by decide
  have e4 : isUsdcToBtcPair "USDC" "BTC" = true := by decide
  have hr : fallbackExchangeRate "USDC" "BTC" 0 = 1 / 65000 := by
    simp [fallbackExchangeRate, e1, e2, e3, e4]
  have ht : slippageToleranceOf (some 50) = 1 / 2 := by
    show (if (50 : ℚ) = 0 then (5 : ℚ) / 1000 else 50 / 100) = 1 / 2
    norm_num
  refine ⟨by norm_num, by norm_num, ?_⟩
  simp only [getFallbackQuote, hr, ht, simulatedFeeRate]
  norm_num

/-- C1 (amended): for every fallback quote with positive input amount and
slippage ≥ 0, `amountOutMin ≤ returnAmount` holds whenever the selected
hard-coded exchange rate is at least the 0.3% fee rate (which excludes the
pairs whose rate, such as 1/65000, is below the fee rate). -/
theorem C1_amended_amountOutMin_le_returnAmount (tokenIn tokenOut : String) (amountIn : ℚ)
    (slippage : Option ℚ) (r : ℚ)
    (hamt : 0 < amountIn)
    (hsl : ∀ x, slippage = some x → 0 ≤ x)
    (hrate : simulatedFeeRate ≤ fallbackExchangeRate tokenIn tokenOut r) :
    (getFallbackQuote tokenIn tokenOut amountIn slippage r).amountOutMin ≤
    (getFallbackQuote tokenIn tokenOut amountIn slippage r).returnAmount := by
  unfold getFallbackQuote
  have hout : 0 ≤ amountIn * fallbackExchangeRate tokenIn tokenOut r -
      amountIn * simulatedFeeRate := by nlinarith
  have hs : 0 ≤ slippageToleranceOf slippage := by
    cases slippage with
    | none =>
      show (0 : ℚ) ≤ 5 / 1000
      norm_num
    | some x =>
      show 0 ≤ (if x = 0 then (5 : ℚ) / 1000 else x / 100)
      by_cases hx : x = 0
      · rw [if_pos hx]; norm_num
      · rw [if_neg hx]
        have hx0 := hsl x rfl
        positivity
  calc (amountIn * fallbackExchangeRate tokenIn tokenOut r - amountIn * simulatedFeeRate) *
        (1 - slippageToleranceOf slippage)
      ≤ (amountIn * fallbackExchangeRate tokenIn tokenOut r - amountIn * simulatedFeeRate) *
        1 := by
        apply mul_le_mul_of_nonneg_left _ hout
        linarith
    _ = amountIn * fallbackExchangeRate tokenIn tokenOut r - amountIn * simulatedFeeRate :=
        mul_one _

/-- Witness for C1 (amended): the SUI→USDC pair with amount 10^9, slippage
0.5 and an arbitrary random draw. -/
theorem C1_amended_amountOutMin_le_returnAmount_witness :
    0 < (1000000000 : ℚ) ∧
    (getFallbackQuote "0x2::sui::SUI"
        "0x5d4b302506645c37ff133b98c4b50a5ae14841659738d6d733d59d0d2177914::coin::COIN"
        1000000000 (some (1 / 2)) 0).amountOutMin ≤
      (getFallbackQuote "0x2::sui::SUI"
        "0x5d4b302506645c37ff133b98c4b50a5ae14841659738d6d733d59d0d2177914::coin::COIN"
        1000000000 (some (1 / 2)) 0).returnAmount :=
  ⟨by norm_num,
   C1_amended_amountOutMin_le_returnAmount "0x2::sui::SUI"
     "0x5d4b302506645c37ff133b98c4b50a5ae14841659738d6d733d59d0d2177914::coin::COIN"
     1000000000 (some (1 / 2)) 0 (by norm_num)
     (by intro x hx; injection hx with hx; rw [← hx]; norm_num)
     (by
       have e : isSuiToUsdcPair "0x2::sui::SUI"
           "0x5d4b302506645c37ff133b98c4b50a5ae14841659738d6d733d59d0d2177914::coin::COIN" =
           true := by decide
       have hr : fallbackExchangeRate "0x2::sui::SUI"
           "0x5d4b302506645c37ff133b98c4b50a5ae14841659738d6d733d59d0d2177914::coin::COIN" 0 =
           11 / 10 := by simp [fallbackExchangeRate, e]
       rw [hr]
       norm_num [simulatedFeeRate])⟩

/-- C9: for a SUI→USDC-like pair and input amount 10^9 base units, the
fallback estimator deterministically applies the hard-coded 1.1 exchange
rate: `returnAmount = amount * 1.1 - amount * 0.003` (hence inside the ±1%
band around `amount * 1.1` minus the fee), and the random perturbation
parameter does not influence the result. -/
theorem C9_sui_usdc_fallback_deterministic (tokenIn tokenOut : String)
    (slippage : Option ℚ) (r r' : ℚ)
    (hpair : isSuiToUsdcPair tokenIn tokenOut = true) :
    (getFallbackQuote tokenIn tokenOut 1000000000 slippage r).returnAmount =
      1000000000 * (11 / 10) - 1000000000 * simulatedFeeRate ∧
    (getFallbackQuote tokenIn tokenOut 1000000000 slippage r).returnAmount =
      (getFallbackQuote tokenIn tokenOut 1000000000 slippage r').returnAmount := by
  constructor
  · simp [getFallbackQuote, fallbackExchangeRate, hpair]
  · simp [getFallbackQuote, fallbackExchangeRate, hpair]

/-- Witness for C9 at the concrete SUI and USDC addresses used in the repo,
with two different random draws. -/
theorem C9_sui_usdc_fallback_deterministic_witness :
    (getFallbackQuote "0x2::sui::SUI"
        "0x5d4b302506645c37ff133b98c4b50a5ae14841659738d6d733d59d0d2177914::coin::COIN"
        1000000000 none 0).returnAmount =
      1000000000 * (11 / 10) - 1000000000 * simulatedFeeRate ∧
    (getFallbackQuote "0x2::sui::SUI"
        "0x5d4b302506645c37ff133b98c4b50a5ae14841659738d6d733d59d0d2177914::coin::COIN"
        1000000000 none 0).returnAmount =
      (getFallbackQuote "0x2::sui::SUI"
        "0x5d4b302506645c37ff133b98c4b50a5ae14841659738d6d733d59d0d2177914::coin::COIN"
        1000000000 none 1).returnAmount :=
  C9_sui_usdc_fallback_deterministic "0x2::sui::SUI"
    "0x5d4b302506645c37ff133b98c4b50a5ae14841659738d6d733d59d0d2177914::coin::COIN"
    none 0 1 (by decide)

/-- Discriminator: does a `getSwapQuote` result come from the fallback
estimator? -/
def isFallbackResult : SwapQuoteResult → Bool
  | .fallback _ => true
  | _ => false

/-- A non-null aggregator response whose `routes` array is empty, for the C2
counterexample. -/
def routelessQuote : Quote :=
  { returnAmount := 1, amountOutMin := 1, effectivePrice := 1, priceImpact := 0,
    feeAmount := 0, numRoutes := 0, isFallback := false }

/-- Counterexample to C2 as stated: a route-less (but non-empty) aggregator
response does NOT produce a fallback quote — `getSwapQuote` raises a
"No swap routes found" error instead. -/
theorem C2_counterexample_routeless :
    isFallbackResult (getSwapQuoteNonMock "0xa::sui::SUI" "0xb::usdc::USDC" 1000000000 none 0
        (.response (some routelessQuote))) = false ∧
    getSwapQuoteNonMock "0xa::sui::SUI" "0xb::usdc::USDC" 1000000000 none 0
        (.response (some routelessQuote)) =
      .raised ("No swap routes found for " ++ "0xa::sui::SUI" ++ " to " ++ "0xb::usdc::USDC") :=
  ⟨rfl, rfl⟩

/-- C2 (amended): in non-mock mode, if the aggregator call throws a network
error (name resolution, connection refused, timeout, explicit abort) or
resolves to an empty (null) response, `getSwapQuote` returns the fallback
estimator's quote instead of propagating an error.  (A non-empty response
with an empty `routes` array instead raises a "No swap routes found" error.) -/
theorem C2_amended_network_or_empty_falls_back (tokenIn tokenOut : String) (amountIn : ℚ)
    (slippage : Option ℚ) (r : ℚ) (outcome : AggregatorOutcome)
    (h : (∃ msg, outcome = .thrownError msg ∧ isNetworkErrorMessage msg = true) ∨
         outcome = .response none) :
    getSwapQuoteNonMock tokenIn tokenOut amountIn slippage r outcome =
      .fallback (getFallbackQuote tokenIn tokenOut amountIn slippage r) := by
  rcases h with ⟨msg, rfl, hmsg⟩ | rfl
  · simp [getSwapQuoteNonMock, hmsg]
  · rfl

/-- Witness for C2 (amended): a concrete connection-refused error. -/
theorem C2_amended_network_or_empty_falls_back_witness :
    getSwapQuoteNonMock "0xa::sui::SUI" "0xb::usdc::USDC" 1000000000 none 0
        (.thrownError "connect ECONNREFUSED 104.18.0.1:443") =
      .fallback (getFallbackQuote "0xa::sui::SUI" "0xb::usdc::USDC" 1000000000 none 0) :=
  C2_amended_network_or_empty_falls_back "0xa::sui::SUI" "0xb::usdc::USDC" 1000000000 none 0
    (.thrownError "connect ECONNREFUSED 104.18.0.1:443")
    (Or.inl ⟨"connect ECONNREFUSED 104.18.0.1:443", rfl, by decide⟩)

/-- C4: starting from a non-running orchestrator, the first `startScanning`
performs exactly one immediate scan and arms the repeating timer; a second
`startScanning` while running changes no state and performs no scan (only a
warning); and `stopScanning` after `startScanning` clears the timer handle,
so no scheduled scan can fire afterwards. -/
theorem C4_start_twice_stop (s0 : OrchestratorState) (h : s0.isRunning = false) :
    ((startScanning s0).2.count .performScan = 1 ∧
      OrchestratorEvent.armTimer ∈ (startScanning s0).2) ∧
    (startScanning (startScanning s0).1 =
      ((startScanning s0).1, [OrchestratorEvent.warnAlreadyRunning])) ∧
    ((stopScanning (startScanning s0).1).1.scanInterval = none ∧
      timerTick (stopScanning (startScanning s0).1).1 = []) := by
  have hstart : startScanning s0 = (⟨true, some 0⟩, [.performScan, .armTimer]) := by
    unfold startScanning
    rw [h]
    rfl
  rw [hstart]
  refine ⟨⟨by decide, by decide⟩, by decide, by decide, by decide⟩

/-- Witness for C4 at the fresh orchestrator state. -/
theorem C4_start_twice_stop_witness :
    ((startScanning freshOrchestratorState).2.count .performScan = 1 ∧
      OrchestratorEvent.armTimer ∈ (startScanning freshOrchestratorState).2) ∧
    (startScanning (startScanning freshOrchestratorState).1 =
      ((startScanning freshOrchestratorState).1, [OrchestratorEvent.warnAlreadyRunning])) ∧
    ((stopScanning (startScanning freshOrchestratorState).1).1.scanInterval = none ∧
      timerTick (stopScanning (startScanning freshOrchestratorState).1).1 = []) :=
  C4_start_twice_stop freshOrchestratorState rfl

/- Unfolding equations for retryLoop. -/

theorem retryLoop_zero {E A : Type} (op : Nat → Except E A) (d at' : Nat) (attempt : Nat)
    (last : Option E) : retryLoop op d at' 0 attempt last = ⟨.error last, 0, []⟩ := rfl

theorem retryLoop_succ_ok {E A : Type} (op : Nat → Except E A) (d at' r attempt : Nat)
    (last : Option E) (a : A) (h : op attempt = .ok a) :
    retryLoop op d at' (r + 1) attempt last = ⟨.ok a, 1, []⟩ := by
  simp only [retryLoop]
  rw [h]

theorem retryLoop_succ_error {E A : Type} (op : Nat → Except E A) (d at' r attempt : Nat)
    (last : Option E) (e : E) (h : op attempt = .error e) :
    retryLoop op d at' (r + 1) attempt last =
      ⟨(retryLoop op d at' r (attempt + 1) (some e)).result,
       (retryLoop op d at' r (attempt + 1) (some e)).calls + 1,
       (if attempt < at' then [d * attempt] else []) ++
         (retryLoop op d at' r (attempt + 1) (some e)).delays⟩ := by
  simp only [retryLoop]
  rw [h]

theorem delays_cons (d attempt m : Nat) :
    d * attempt :: ((List.range m).map fun i => d * (attempt + 1 + i)) =
      (List.range (m + 1)).map fun i => d * (attempt + i) := by
  have hf : ((fun i => d * (attempt + i)) ∘ Nat.succ) = fun i => d * (attempt + 1 + i) := by
    funext i
    exact congrArg (fun t => d * t) (by omega)
  rw [List.range_succ_eq_map, List.map_cons, List.map_map, hf]
  simp

theorem retryLoop_success {E A : Type} (op : Nat → Except E A) (retryDelay retryAttempts : Nat) :
    ∀ (m remaining attempt : Nat) (last : Option E) (v : A),
      m < remaining →
      attempt + m ≤ retryAttempts →
      (∀ i, attempt ≤ i → i < attempt + m → ∃ e, op i = .error e) →
      op (attempt + m) = .ok v →
      retryLoop op retryDelay retryAttempts remaining attempt last =
        ⟨.ok v, m + 1, (List.range m).map fun i => retryDelay * (attempt + i)⟩ := by
  intro m
  induction m with
  | zero =>
    intro remaining attempt last v hm hb herr hok
    obtain ⟨r, rfl⟩ : ∃ r, remaining = r + 1 := ⟨remaining - 1, by omega⟩
    rw [Nat.add_zero] at hok
    rw [retryLoop_succ_ok op retryDelay retryAttempts r attempt last v hok]
    rfl
  | succ m ih =>
    intro remaining attempt last v hm hb herr hok
    obtain ⟨r, rfl⟩ : ∃ r, remaining = r + 1 := ⟨remaining - 1, by omega⟩
    obtain ⟨e, he⟩ := herr attempt (Nat.le_refl attempt) (by omega)
    rw [retryLoop_succ_error op retryDelay retryAttempts r attempt last e he]
    rw [ih r (attempt + 1) (some e) v (by omega) (by omega)
      (fun i h1 h2 => herr i (by omega) (by omega))
      (by rw [show attempt + 1 + m = attempt + (m + 1) from by omega]; exact hok)]
    dsimp only
    rw [if_pos (show attempt < retryAttempts by omega)]
    rw [List.singleton_append, delays_cons]

theorem retryLoop_allfail {E A : Type} (op : Nat → Except E A) (retryDelay retryAttempts : Nat)
    (errs : Nat → E) :
    ∀ (r attempt : Nat) (last : Option E),
      attempt + r = retryAttempts →
      (∀ i, attempt ≤ i → i ≤ retryAttempts → op i = .error (errs i)) →
      retryLoop op retryDelay retryAttempts (r + 1) attempt last =
        ⟨.error (some (errs retryAttempts)), r + 1,
          (List.range r).map fun i => retryDelay * (attempt + i)⟩ := by
  intro r
  induction r with
  | zero =>
    intro attempt last hinv herr
    have hop := herr attempt (Nat.le_refl attempt) (by omega)
    rw [retryLoop_succ_error op retryDelay retryAttempts 0 attempt last (errs attempt) hop]
    rw [retryLoop_zero]
    dsimp only
    rw [if_neg (show ¬ attempt < retryAttempts by omega)]
    rw [show attempt = retryAttempts from hinv ▸ by omega]
    rfl
  | succ r ih =>
    intro attempt last hinv herr
    have hop := herr attempt (Nat.le_refl attempt) (by omega)
    rw [retryLoop_succ_error op retryDelay retryAttempts (r + 1) attempt last (errs attempt) hop]
    rw [ih (attempt + 1) (some (errs attempt)) (by omega)
      (fun i h1 h2 => herr i (by omega) h2)]
    dsimp only
    rw [if_pos (show attempt < retryAttempts by omega)]
    rw [List.singleton_append, delays_cons]

/-- C3: `withRetry` with an operation that fails exactly `k < retryAttempts`
times and then succeeds returns the success value after exactly `k + 1`
invocations, with the delay before attempt `n + 1` equal to
`retryDelay * n`; and when every one of the `retryAttempts` invocations
fails, it propagates the error of the last attempt. -/
theorem C3_withRetry_spec (E A : Type) (retryAttempts retryDelay : Nat) :
    (∀ (op : Nat → Except E A) (k : Nat) (v : A),
      k < retryAttempts →
      (∀ i, 1 ≤ i → i ≤ k → ∃ e, op i = .error e) →
      op (k + 1) = .ok v →
      withRetry op retryAttempts retryDelay =
        ⟨.ok v, k + 1, (List.range k).map fun i => retryDelay * (1 + i)⟩) ∧
    (∀ (op : Nat → Except E A) (errs : Nat → E),
      1 ≤ retryAttempts →
      (∀ i, 1 ≤ i → i ≤ retryAttempts → op i = .error (errs i)) →
      withRetry op retryAttempts retryDelay =
        ⟨.error (some (errs retryAttempts)), retryAttempts,
          (List.range (retryAttempts - 1)).map fun i => retryDelay * (1 + i)⟩) := by
  constructor
  · intro op k v hk herr hok
    unfold withRetry
    exact retryLoop_success op retryDelay retryAttempts k retryAttempts 1 none v hk
      (by omega) (fun i h1 h2 => herr i h1 (by omega))
      (by rw [show (1 : Nat) + k = k + 1 from by omega]; exact hok)
  · intro op errs hA herr
    obtain ⟨r, rfl⟩ : ∃ r, retryAttempts = r + 1 := ⟨retryAttempts - 1, by omega⟩
    unfold withRetry
    rw [retryLoop_allfail op retryDelay (r + 1) errs r 1 none (by omega) herr]
    rw [show r + 1 - 1 = r from by omega]

/-- Witness for C3: three attempts with delay 100; an operation failing twice
then succeeding makes three calls with delays `[100, 200]`, and an operation
always failing surfaces the error of attempt 3. -/
theorem C3_withRetry_spec_witness :
    withRetry (fun i => if i ≤ 2 then Except.error i else Except.ok 42) 3 100 =
      ⟨.ok 42, 3, [100, 200]⟩ ∧
    withRetry (fun i => (Except.error i : Except Nat Nat)) 3 100 =
      ⟨.error (some 3), 3, [100, 200]⟩ := by
  constructor
  · have h := (C3_withRetry_spec Nat Nat 3 100).1
      (fun i => if i ≤ 2 then Except.error i else Except.ok 42) 2 42 (by omega)
      (fun i h1 h2 => ⟨i, by
        show (if i ≤ 2 then Except.error i else Except.ok 42) = Except.error i
        rw [if_pos h2]⟩)
      (by
        show (if 2 + 1 ≤ 2 then Except.error (2 + 1) else Except.ok 42) = Except.ok 42
        rw [if_neg (by omega)])
    rw [h]
    rfl
  · have h := (C3_withRetry_spec Nat Nat 3 100).2
      (fun i => (Except.error i : Except Nat Nat)) (fun i => i) (by omega)
      (fun i h1 h2 => rfl)
    rw [h]
    rfl

/- Repairs produced by fixTokenFormat are themselves valid (or no repair
happened). -/

theorem fixTokenFormat_of_valid (t : String) (h : validateTokenFormat t = true) :
    fixTokenFormat t = t := by
  unfold fixTokenFormat
  rw [if_pos h]

theorem fixTokenFormat_cases (s : String) :
    validateTokenFormat (fixTokenFormat s) = true ∨ fixTokenFormat s = s := by
  by_cases hv : validateTokenFormat s = true
  · right
    exact fixTokenFormat_of_valid s hv
  · unfold fixTokenFormat
    rw [if_neg hv]
    by_cases h2 : isBareHexAddress (trimChars s.data) = true
    · rw [if_pos h2]
      left
      unfold isBareHexAddress at h2
      split at h2
      case _ rest heq =>
        rw [Bool.and_eq_true, Bool.not_eq_true', isEmpty_false_iff_ne_nil] at h2
        rw [heq]
        show tripleBody (rest ++ "::coin::COIN".data) = true
        apply (tripleBody_iff _).mpr
        exact ⟨rest, ['c', 'o', 'i', 'n'], ['C', 'O', 'I', 'N'], rfl,
          h2.1, h2.2, by decide, by decide, by decide, by decide⟩
      case _ =>
        exact absurd h2 (by simp)
    · rw [if_neg h2]
      by_cases h3 : tripleBody (trimChars s.data) = true
      · rw [if_pos h3]
        left
        show tripleBody (trimChars s.data) = true
        exact h3
      · rw [if_neg h3]
        right
        rfl

/-- C8: token-address repair is idempotent — applying `fixTokenFormat` twice
gives the same result as applying it once — and resolving an already-valid
address with `getTokenAddress` returns it unchanged. -/
theorem C8_resolution_idempotent (x : String) :
    fixTokenFormat (fixTokenFormat x) = fixTokenFormat x ∧
    (validateTokenFormat x = true → getTokenAddress x = some x) := by
  constructor
  · rcases fixTokenFormat_cases x with hv | heq
    · exact fixTokenFormat_of_valid (fixTokenFormat x) hv
    · rw [heq, heq]
  · intro hv
    unfold getTokenAddress
    rw [if_pos hv]

/-- Witness for C8 at the concrete valid address `0x2::sui::SUI`. -/
theorem C8_resolution_idempotent_witness :
    fixTokenFormat (fixTokenFormat "0x2::sui::SUI") = fixTokenFormat "0x2::sui::SUI" ∧
    getTokenAddress "0x2::sui::SUI" = some "0x2::sui::SUI" :=
  ⟨(C8_resolution_idempotent "0x2::sui::SUI").1,
   (C8_resolution_idempotent "0x2::sui::SUI").2 (by decide)⟩

end SuiFlashBot
